import Mathlib

/-!
Shallow embedding of the vote-escrow (ve) checkpointed decay-curve engine of
`src/ve/src/vedata.rs`, and proofs settling the frozen claims about it.

Machine integers are modelled as `Nat` (u64 / u128) and `Int` (i128), with
explicit two's-complement wrapping (`wrap128`, `sub128`, `% 2^64`, `% 2^128`)
inserted exactly where the Rust release-mode arithmetic can wrap.
Persistent dictionaries are modelled as total functions with the Rust
`unwrap_or_default` defaults.
-/

set_option maxRecDepth 100000

namespace VeCep47

/-- `WEEK` constant (vedata.rs line 69). -/
def WEEK : Nat := 86400 * 7

/-- `MAXTIME` = `I_MAXTIME.unsigned_abs()` = 26 weeks in seconds (lines 70-71). -/
def MAXTIME : Nat := 26 * 86400 * 7

/-- `MULTIPLIER` (line 72). -/
def MULTIPLIER : Nat := 1000000000000000000

/-- `MAX_DELEGATES` (line 73). -/
def MAX_DELEGATES : Nat := 1024

/-- `MERGE_TYPE` deposit-type flag (line 68). -/
def MERGE_TYPE : Nat := 4

/-- `current_block_number` (lines 79-81): the hard-coded constant 100. -/
def current_block_number : Nat := 100

/-- Two's-complement wrap of an unbounded integer into the i128 range,
modelling Rust release-mode i128 overflow and `as i128` casts. -/
def wrap128 (z : Int) : Int := (z + 2 ^ 127) % 2 ^ 128 - 2 ^ 127

/-- Wrapping u128 subtraction `a - b` for `b < 2^128`, modelling Rust
release-mode u128 underflow. -/
def sub128 (a b : Nat) : Nat := (a + 2 ^ 128 - b) % 2 ^ 128

/-- The `if x < 0 { x = 0 }` clamp the contract applies to biases and slopes. -/
def clamp0 (z : Int) : Int := if z < 0 then 0 else z

/-- `Point` (lines 117-123): bias/slope are i128, ts/blk are u64. -/
structure Point where
  bias : Int
  slope : Int
  ts : Nat
  blk : Nat
deriving DecidableEq

/-- `Point::default()` (lines 125-134). -/
def Point.default : Point := ⟨0, 0, 0, 0⟩

/-- `LockedBalance` (lines 83-87): amount is u128, `end` (a Lean keyword,
written `end_`) is u64. -/
structure LockedBalance where
  amount : Nat
  end_ : Nat
deriving DecidableEq

/-- `LockedBalance::default()` (lines 89-93). -/
def LockedBalance.default : LockedBalance := ⟨0, 0⟩

/-- Delegate `Checkpoint` (lines 171-175): timestamp is u128, token_ids a
vector of u64 position ids. -/
structure Checkpoint where
  timestamp : Nat
  token_ids : List Nat
deriving DecidableEq

/-- `Checkpoint::default()` (lines 177-184). -/
def Checkpoint.default : Checkpoint := ⟨0, []⟩

/-- The `u_old` / `u_new` projection of `_check_point` (lines 370-379): slope
`amount / MAXTIME` (the u128 quotient cast `as i128`), bias
`slope * ((end - ts) as i128)`, both zero unless `end > ts && amount > 0`. -/
def uPointOf (locked : LockedBalance) (ts : Nat) : Point :=
  if locked.end_ > ts ∧ locked.amount > 0 then
    let s : Int := wrap128 (Int.ofNat (locked.amount / MAXTIME))
    { bias := wrap128 (s * Int.ofNat (locked.end_ - ts)), slope := s, ts := 0, blk := 0 }
  else Point.default

/-- The point `_check_point` records into the per-position history
(lines 493-496): `u_new` with `ts` and `blk` set to now / current block. -/
def userWrittenPoint (locked : LockedBalance) (ts : Nat) : Point :=
  { uPointOf locked ts with ts := ts, blk := current_block_number }

/-- `_balance_of_nft` (lines 736-751) projected onto one position: `uep` is
the position's USER_POINT_EPOCH entry, `hist` its USER_POINT_HISTORY column. -/
def _balance_of_nft (uep : Nat) (hist : Nat → Point) (t : Nat) : Nat :=
  if uep = 0 then 0
  else
    let p := hist uep
    (clamp0 (wrap128 (p.bias - wrap128 (p.slope * (Int.ofNat t - Int.ofNat p.ts))))).toNat

/-- `get_votes` (lines 1116-1133): reads the checkpoint at index
`n_checkpoints` (not `n_checkpoints - 1`) and folds u128 additions of
`_balance_of_nft` of each listed id. `num` is the account's NUM_CHECKPOINTS
entry, `cp` its CHECKPOINTS column, `uep`/`uhist` the per-position stores. -/
def get_votes (num : Nat) (cp : Nat → Checkpoint) (uep : Nat → Nat)
    (uhist : Nat → Nat → Point) (ts : Nat) : Nat :=
  if num = 0 then 0
  else (cp num).token_ids.foldl
    (fun r id => (r + _balance_of_nft (uep id) (uhist id) ts) % 2 ^ 128) 0

/-- The contract state `_check_point` touches: EPOCH, POINT_HISTORY,
SLOPE_CHANGES, USER_POINT_EPOCH, USER_POINT_HISTORY, plus the LOCKED store and
VE_SUPPLY used by `_deposit_for`/`merge`. Dictionaries are total functions
returning the code's `unwrap_or_default` values when unset. -/
structure VeState where
  epoch : Nat
  point_history : Nat → Point
  slope_changes : Nat → Int
  user_point_epoch : Nat → Nat
  user_point_history : Nat → Nat → Point
  locked : Nat → LockedBalance
  ve_supply : Nat

/-- The mutable state of `_check_point`'s weekly replay loop (lines 414-452):
`lp` = `last_point`, `lc` = `last_checkpoint` (u64), `ep` = `_epoch` (u128),
`ti` = `t_i` (u128), `ws` = the `dict.set` writes into POINT_HISTORY so far. -/
structure LoopState where
  lp : Point
  lc : Nat
  ep : Nat
  ti : Nat
  ws : List (Nat × Point)
deriving DecidableEq

/-- One iteration of `_check_point`'s weekly replay loop (lines 416-451):
advance `t_i` by a week (capped at `ts`), subtract `slope * elapsed` from the
bias, add the bucket's scheduled slope change, clamp both at zero, set the
point's timestamp and interpolated block, bump the epoch; on reaching `ts`
overwrite `blk` with the current block number and signal break, otherwise
record the point at the new epoch. `sc` is SLOPE_CHANGES, `ilp` =
`initial_last_point`, `bslope` = `block_slope`. -/
def cpStep (sc : Nat → Int) (ts bn : Nat) (ilp : Point) (bslope : Nat)
    (s : LoopState) : Bool × LoopState :=
  let ti1 := s.ti + WEEK
  let ti2 := if ti1 > ts then ts else ti1
  let ds : Int := if ti1 > ts then 0 else sc (ti1 % 2 ^ 64)
  let b2 := clamp0 (wrap128 (s.lp.bias - wrap128 (s.lp.slope * wrap128 (Int.ofNat (sub128 ti2 s.lc)))))
  let sl2 := clamp0 (wrap128 (s.lp.slope + ds))
  let newts := ti2 % 2 ^ 64
  let blkI := (ilp.blk + (bslope * sub128 ti2 ilp.ts % 2 ^ 128 / MULTIPLIER) % 2 ^ 64) % 2 ^ 64
  let ep1 := s.ep + 1
  if ti2 = ts then
    (true, { lp := ⟨b2, sl2, newts, bn⟩, lc := newts, ep := ep1, ti := ti2, ws := s.ws })
  else
    (false, { lp := ⟨b2, sl2, newts, blkI⟩, lc := newts, ep := ep1, ti := ti2,
              ws := s.ws ++ [(ep1, ⟨b2, sl2, newts, blkI⟩)] })

/-- The `for _i in 0..255` loop of `_check_point` as fuel recursion: run
`cpStep` until it signals break or the fuel (255 at the call site) runs out. -/
def cpLoop (sc : Nat → Int) (ts bn : Nat) (ilp : Point) (bslope : Nat) :
    Nat → LoopState → LoopState
  | 0, s => s
  | fuel + 1, s =>
    let r := cpStep sc ts bn ilp bslope s
    if r.1 then r.2 else cpLoop sc ts bn ilp bslope fuel r.2

/-- `last_point` before the replay (lines 394-403): the recorded point at the
current epoch, or a fresh zero point at `(ts, current block)` when no history
exists. -/
def lastPointOf (st : VeState) (ts : Nat) : Point :=
  if st.epoch > 0 then st.point_history st.epoch
  else ⟨0, 0, ts, current_block_number⟩

/-- `block_slope` (lines 408-412): `MULTIPLIER * (block_number - last.blk) /
(ts - last.ts)` in u128 when time advanced, else 0. -/
def blockSlopeOf (lp : Point) (ts : Nat) : Nat :=
  if ts > lp.ts then MULTIPLIER * sub128 current_block_number lp.blk % 2 ^ 128 / (ts - lp.ts)
  else 0

/-- The loop's starting state (lines 406-415): `t_i` starts at
`(last_checkpoint / WEEK) * WEEK`, no writes yet. -/
def cpInitState (st : VeState) (ts : Nat) : LoopState :=
  ⟨lastPointOf st ts, (lastPointOf st ts).ts, st.epoch,
   (lastPointOf st ts).ts / WEEK * WEEK, []⟩

/-- The replay loop of `_check_point` run to completion from state `st`. -/
def cpRun (st : VeState) (ts : Nat) : LoopState :=
  cpLoop st.slope_changes ts current_block_number (lastPointOf st ts)
    (blockSlopeOf (lastPointOf st ts) ts) 255 (cpInitState st ts)

/-- The final current point (lines 457-466): fold the position delta
`u_new - u_old` into the replayed point, clamping slope and bias at zero;
for the sentinel position 0 the replayed point is recorded as is. -/
def cpFinalPoint (st : VeState) (token_id : Nat)
    (old_locked new_locked : LockedBalance) (ts : Nat) : Point :=
  let lpF := (cpRun st ts).lp
  if token_id ≠ 0 then
    ⟨clamp0 (wrap128 (wrap128 (lpF.bias + (uPointOf new_locked ts).bias) - (uPointOf old_locked ts).bias)),
     clamp0 (wrap128 (wrap128 (lpF.slope + (uPointOf new_locked ts).slope) - (uPointOf old_locked ts).slope)),
     lpF.ts, lpF.blk⟩
  else lpF

/-- Every write `_check_point` makes into POINT_HISTORY, in order: the
intermediate weekly points recorded inside the loop (line 448) followed by the
final current point (line 468), each keyed by its u128 epoch. -/
def cpWrites (st : VeState) (token_id : Nat)
    (old_locked new_locked : LockedBalance) (ts : Nat) : List (Nat × Point) :=
  (cpRun st ts).ws ++ [((cpRun st ts).ep, cpFinalPoint st token_id old_locked new_locked ts)]

/-- The SLOPE_CHANGES store after `_check_point`'s schedule update
(lines 470-485). -/
def scAfter (st : VeState) (token_id : Nat)
    (old_locked new_locked : LockedBalance) (ts : Nat) : Nat → Int :=
  let u_old := uPointOf old_locked ts
  let u_new := uPointOf new_locked ts
  let old_dslope := st.slope_changes old_locked.end_
  let new_dslope : Int :=
    if new_locked.end_ ≠ 0 then
      if new_locked.end_ = old_locked.end_ then old_dslope
      else st.slope_changes new_locked.end_
    else 0
  let sc2 : Nat → Int :=
    if token_id ≠ 0 ∧ old_locked.end_ > ts then
      let od := wrap128 (old_dslope + u_old.slope)
      let od := if new_locked.end_ = old_locked.end_ then wrap128 (od - u_new.slope) else od
      fun k => if k = old_locked.end_ then od else st.slope_changes k
    else st.slope_changes
  if token_id ≠ 0 ∧ new_locked.end_ > ts ∧ new_locked.end_ > old_locked.end_ then
    fun k => if k = new_locked.end_ then wrap128 (new_dslope - u_new.slope) else sc2 k
  else sc2

/-- `_check_point` (lines 361-498) on the embedded state: returns the new
state and the ordered list of POINT_HISTORY writes it performed. The stored
EPOCH is the u128 epoch counter cast `as u64` (line 455); when `token_id ≠ 0`
the per-position epoch advances by one and `u_new` (with `ts`/`blk` filled in)
is recorded at it (lines 487-496). -/
def _check_point (st : VeState) (token_id : Nat)
    (old_locked new_locked : LockedBalance) (ts : Nat) :
    VeState × List (Nat × Point) :=
  let ws := cpWrites st token_id old_locked new_locked ts
  let ue1 := (st.user_point_epoch token_id + 1) % 2 ^ 64
  ({ st with
      epoch := (cpRun st ts).ep % 2 ^ 64,
      point_history := ws.foldl (fun f w => fun k => if k = w.1 then w.2 else f k) st.point_history,
      slope_changes := scAfter st token_id old_locked new_locked ts,
      user_point_epoch :=
        if token_id ≠ 0 then
          fun tk => if tk = token_id then ue1 else st.user_point_epoch tk
        else st.user_point_epoch,
      user_point_history :=
        if token_id ≠ 0 then
          fun tk i => if tk = token_id ∧ i = ue1 then userWrittenPoint new_locked ts
                      else st.user_point_history tk i
        else st.user_point_history }, ws)

/-- `_deposit_for` (lines 506-543): bump VE_SUPPLY, add `value` to the lock
(u128), replace `end` when `unlock_time ≠ 0`, store it, checkpoint the
position, and perform the external `transfer_from` only when `value ≠ 0` and
the deposit type is not MERGE_TYPE. Returns the new state and whether the
external transfer happened. -/
def _deposit_for (st : VeState) (token_id value unlock_time : Nat)
    (locked_balance : LockedBalance) (deposit_type : Nat) (ts : Nat) :
    VeState × Bool :=
  let st1 := { st with ve_supply := (st.ve_supply + value) % 2 ^ 128 }
  let old_locked : LockedBalance := ⟨locked_balance.amount, locked_balance.end_⟩
  let locked2 : LockedBalance :=
    ⟨(locked_balance.amount + value) % 2 ^ 128,
     if unlock_time ≠ 0 then unlock_time else locked_balance.end_⟩
  let st2 := { st1 with locked := fun k => if k = token_id then locked2 else st1.locked k }
  let st3 := (_check_point st2 token_id old_locked locked2 ts).1
  (st3, (value != 0) && (deposit_type != MERGE_TYPE))

/-- `merge` (lines 988-1018) after its requires (`from ≠ to`, ownership):
read both locks, clear `from`'s lock, checkpoint `from` to zero, then deposit
`from`'s amount with the later of the two ends into `to` under MERGE_TYPE.
The NFT burn and its delegate moves touch only the NFT/delegation stores,
not this state. Returns the state and whether an external transfer happened. -/
def merge (st : VeState) (fromId toId ts : Nat) : VeState × Bool :=
  let locked0 := st.locked fromId
  let locked1 := st.locked toId
  let value0 := locked0.amount
  let endMax := if locked0.end_ ≥ locked1.end_ then locked0.end_ else locked1.end_
  let st1 := { st with locked := fun k => if k = fromId then LockedBalance.default else st.locked k }
  let st2 := (_check_point st1 fromId locked0 LockedBalance.default ts).1
  _deposit_for st2 toId value0 endMax locked1 MERGE_TYPE ts

/-- The point `initialize` records at epoch 0 (lines 243-250): zero bias and
slope, the current timestamp and the current block number. -/
def initialPoint (ts : Nat) : Point := ⟨0, 0, ts, current_block_number⟩

/-- The loop of `_supply_at` (lines 876-893) as fuel recursion over
`(last_point, t_i)`, both u64 arithmetic: advance `t_i` by a week (capped at
`t`), subtract `slope * elapsed` from the bias, break at `t`, otherwise add
the bucket's slope change and set `last_point.ts` to `last_point.ts + t_i`
(the code adds `t_i` instead of assigning it). -/
def saLoop (sc : Nat → Int) (t : Nat) : Nat → Point × Nat → Point
  | 0, s => s.1
  | fuel + 1, s =>
    let p := s.1
    let ti1 := (s.2 + WEEK) % 2 ^ 64
    let ti2 := if ti1 > t then t else ti1
    let ds : Int := if ti1 > t then 0 else sc ti1
    let bias := wrap128 (p.bias - wrap128 (p.slope * (Int.ofNat ti2 - Int.ofNat p.ts)))
    if ti2 = t then { p with bias := bias }
    else saLoop sc t fuel
      ({ bias := bias, slope := wrap128 (p.slope + ds), ts := (p.ts + ti2) % 2 ^ 64, blk := p.blk }, ti2)

/-- `_supply_at` (lines 875-899): replay from `point` to `t` with `saLoop`
(255 iterations, `t_i` starting at the week boundary below `point.ts`), clamp
the final bias at zero, return it as u128. `sc` is SLOPE_CHANGES. -/
def _supply_at (sc : Nat → Int) (point : Point) (t : Nat) : Nat :=
  (clamp0 (saLoop sc t 255 (point, point.ts / WEEK * WEEK)).bias).toNat

/-- The `for _i in 0..128` loop of `_find_block_epoch` (lines 714-727) as fuel
recursion over `(min, max)`, u64 arithmetic: stop when `min ≥ max`, take
`mid = (min + max + 1) / 2` (the sum wrapping at `2^64`), move `min` up to
`mid` when `point[mid].blk ≤ b`, else move `max` down to `mid - 1` (wrapping
at zero). -/
def fbeLoop (hist : Nat → Point) (b : Nat) : Nat → Nat → Nat → Nat
  | 0, mn, _mx => mn
  | fuel + 1, mn, mx =>
    if mn ≥ mx then mn
    else
      let mid := (mn + mx + 1) % 2 ^ 64 / 2
      if (hist mid).blk ≤ b then fbeLoop hist b fuel mid mx
      else fbeLoop hist b fuel mn ((mid + (2 ^ 64 - 1)) % 2 ^ 64)

/-- `_find_block_epoch` (lines 712-729): binary search POINT_HISTORY's `blk`
fields over `[0, max_epoch]` with a 128-iteration cap. -/
def _find_block_epoch (hist : Nat → Point) (b max_epoch : Nat) : Nat :=
  fbeLoop hist b 128 0 max_epoch

/-- The delegation stores (CHECKPOINTS and NUM_CHECKPOINTS, lines 1057-1079):
accounts are modelled as `Nat` with 0 standing for the all-zero null key. -/
structure DelegStore where
  num_checkpoints : Nat → Nat
  checkpoints : Nat → Nat → Checkpoint

/-- `set_check_point` (lines 1063-1067). -/
def DelegStore.setCp (st : DelegStore) (a i : Nat) (c : Checkpoint) : DelegStore :=
  ⟨st.num_checkpoints, fun x y => if x = a ∧ y = i then c else st.checkpoints x y⟩

/-- `set_num_checkpoints` (lines 1075-1079). -/
def DelegStore.setNum (st : DelegStore) (a n : Nat) : DelegStore :=
  ⟨fun x => if x = a then n else st.num_checkpoints x, st.checkpoints⟩

/-- `_find_what_checkpoint_to_write` (lines 1245-1255): the latest checkpoint
index when its timestamp (u128 cast `as u64`) equals the current timestamp,
else the next fresh index. -/
def _find_what_checkpoint_to_write (ts : Nat) (st : DelegStore) (account : Nat) : Nat :=
  let n := st.num_checkpoints account
  if n > 0 ∧ (st.checkpoints account (n - 1)).timestamp % 2 ^ 64 = ts then n - 1
  else n

/-- `_move_token_delegates` (lines 1198-1243): for each non-null side of a
`src ≠ dst`, `token_id > 0` move, copy the most recent checkpoint's ids minus
`token_id` onto the checkpoint `_find_what_checkpoint_to_write` designates and
bump the account's counter; the destination side first requires the old set
to have room for one more id (`none` models the revert). The copy appends to
whatever ids the designated checkpoint already holds, and no side ever pushes
`token_id` itself. -/
def _move_token_delegates (ts : Nat) (st : DelegStore) (src dst token_id : Nat) :
    Option DelegStore :=
  if src ≠ dst ∧ 0 < token_id then
    let st1 :=
      if src ≠ 0 then
        let n := st.num_checkpoints src
        let cp := if n > 0 then st.checkpoints src (n - 1) else st.checkpoints src 0
        let next := _find_what_checkpoint_to_write ts st src
        let cpNew := st.checkpoints src next
        let cpNew := { cpNew with token_ids := cpNew.token_ids ++ cp.token_ids.filter (fun id => id != token_id) }
        (st.setCp src next cpNew).setNum src (n + 1)
      else st
    if dst ≠ 0 then
      let n := st1.num_checkpoints dst
      let cp := if n > 0 then st1.checkpoints dst (n - 1) else st1.checkpoints dst 0
      if cp.token_ids.length + 1 ≤ MAX_DELEGATES then
        let next := _find_what_checkpoint_to_write ts st1 dst
        let cpNew := st1.checkpoints dst next
        let cpNew := { cpNew with token_ids := cpNew.token_ids ++ cp.token_ids.filter (fun id => id != token_id) }
        some ((st1.setCp dst next cpNew).setNum dst (n + 1))
      else none
    else some st1
  else some st

/-- The store `_move_token_delegates` leaves behind (the pre-state when the
call reverts). -/
def mtdAfter (ts : Nat) (st : DelegStore) (src dst token_id : Nat) : DelegStore :=
  (_move_token_delegates ts st src dst token_id).getD st

/-- `_move_all_delegates` (lines 1257-1302): `ownerOf` is the NFT registry's
`owner_of`, `ownerTokens` the owner's tokens as `get_token_by_index`
enumerates them (so `balance_of owner = ownerTokens.length`). The source side
copies the old ids not owned by `owner`; the destination side requires
`old set size + owner's token count ≤ MAX_DELEGATES`, then copies the old ids
plus all of the owner's tokens. Both sides append onto whatever the designated
checkpoint already holds and bump the counter. -/
def _move_all_delegates (ownerOf : Nat → Nat) (ownerTokens : List Nat)
    (ts : Nat) (st : DelegStore) (owner src dst : Nat) : Option DelegStore :=
  if src ≠ dst then
    let st1 :=
      if src ≠ 0 then
        let n := st.num_checkpoints src
        let old := if n > 0 then st.checkpoints src (n - 1) else st.checkpoints src 0
        let next := _find_what_checkpoint_to_write ts st src
        let srcNew := st.checkpoints src next
        let srcNew := { srcNew with token_ids := srcNew.token_ids ++ old.token_ids.filter (fun tid => ownerOf tid != owner) }
        (st.setCp src next srcNew).setNum src (n + 1)
      else st
    if dst ≠ 0 then
      let n := st1.num_checkpoints dst
      let old := if n > 0 then st1.checkpoints dst (n - 1) else st1.checkpoints dst 0
      let next := _find_what_checkpoint_to_write ts st1 dst
      let dstNew := st1.checkpoints dst next
      if old.token_ids.length + ownerTokens.length ≤ MAX_DELEGATES then
        let dstNew := { dstNew with token_ids := dstNew.token_ids ++ old.token_ids ++ ownerTokens }
        some ((st1.setCp dst next dstNew).setNum dst (n + 1))
      else none
    else some st1
  else some st

/-- `set_delegate` (lines 1039-1043) on the DELEGATES store (unset = 0, the
null key). -/
def set_delegate (dmap : Nat → Nat) (a d : Nat) : Nat → Nat :=
  fun x => if x = a then d else dmap x

/-- `_delegates` (lines 1093-1103): the stored delegatee, or the delegator
itself when the stored value is the null key. -/
def _delegates (dmap : Nat → Nat) (delegator : Nat) : Nat :=
  if dmap delegator = 0 then delegator else dmap delegator

/-- The `delegates` entry point (lines 1105-1109): it returns the `delegator`
argument itself, reading no store. -/
def delegates (delegator : Nat) : Nat := delegator

/-! Concrete fixtures used by the closed theorems below. -/

/-- A point history whose every entry has `blk = 100` (as every point this
contract ever records does). -/
def histConst100 : Nat → Point := fun _ => ⟨0, 0, 0, 100⟩

/-- A starting point for the supply replay comparison: bias 1000000, slope 1,
recorded at (non-week-aligned) time 100. -/
def pSupply : Point := ⟨1000000, 1, 100, 100⟩

/-- A VeState whose single recorded global point is `pSupply` and whose
slope-change schedule is empty. -/
def stSupply : VeState :=
  ⟨1, fun _ => pSupply, fun _ => 0, fun _ => 0, fun _ _ => Point.default,
   fun _ => LockedBalance.default, 0⟩

/-- Delegation store: account 1 has one checkpoint, at index 0, holding 600
distinct position ids, stamped with timestamp 7. -/
def stDeleg600 : DelegStore :=
  ⟨fun a => if a = 1 then 1 else 0,
   fun a i => if a = 1 ∧ i = 0 then ⟨7, List.range 600⟩ else Checkpoint.default⟩

/-- Delegation store: account 1 has one checkpoint, at index 0, holding
position id 42, stamped with timestamp 0. -/
def stDeleg42 : DelegStore :=
  ⟨fun a => if a = 1 then 1 else 0,
   fun a i => if a = 1 ∧ i = 0 then ⟨0, [42]⟩ else Checkpoint.default⟩

/-- The all-empty delegation store. -/
def stDeleg0 : DelegStore := ⟨fun _ => 0, fun _ _ => Checkpoint.default⟩

/-- The checkpoint column of the account used in the get_votes fixture: one
recorded checkpoint, at index 0, listing position 1. -/
def cpVotes : Nat → Checkpoint := fun i => if i = 0 then ⟨3, [1]⟩ else ⟨0, []⟩

/-- Per-position history in which every position has one recorded point of
bias 100 and slope 0. -/
def uhVotes : Nat → Nat → Point := fun _ _ => ⟨100, 0, 0, 100⟩

/-- The empty contract state (no history, no locks). -/
def stEmptyVe : VeState :=
  ⟨0, fun _ => Point.default, fun _ => 0, fun _ => 0, fun _ _ => Point.default,
   fun _ => LockedBalance.default, 0⟩

/-- State with two locks: position 1 holds {500, 1209600}, position 2 holds
{300, 1814400}. -/
def stMerge : VeState :=
  ⟨0, fun _ => Point.default, fun _ => 0, fun _ => 0, fun _ _ => Point.default,
   fun k => if k = 1 then ⟨500, 1209600⟩ else if k = 2 then ⟨300, 1814400⟩ else LockedBalance.default, 0⟩

/-- State whose global history is all-`blk = 100` with one recorded epoch. -/
def stBlk100 : VeState :=
  ⟨1, histConst100, fun _ => 0, fun _ => 0, fun _ _ => Point.default,
   fun _ => LockedBalance.default, 0⟩

end VeCep47

namespace VeCep47

/-! ## Helper lemmas -/

theorem clamp0_nonneg (z : Int) : 0 ≤ clamp0 z := by
  unfold clamp0; split <;> omega

theorem clamp0_eq_of_nonneg {z : Int} (h : 0 ≤ z) : clamp0 z = z := by
  unfold clamp0; split <;> omega

theorem clamp0_eq_zero_of_nonpos {z : Int} (h : z ≤ 0) : clamp0 z = 0 := by
  unfold clamp0; split <;> omega

theorem clamp0_mono {a b : Int} (h : a ≤ b) : clamp0 a ≤ clamp0 b := by
  unfold clamp0; split <;> split <;> omega

theorem wrap128_eq_self {z : Int} (h1 : -(2 ^ 127) ≤ z) (h2 : z < 2 ^ 127) :
    wrap128 z = z := by
  have e : (2 : Int) ^ 128 = 2 ^ 127 + 2 ^ 127 := by ring
  unfold wrap128
  rw [Int.emod_eq_of_lt (by omega) (by omega)]
  omega

/-! ## Claim theorems: concrete evaluations -/

/-- Claim C1: false on the code. `get_votes` is specified to sum
`_balance_of_nft` over the ids of the checkpoint at index
`num_checkpoints - 1`; the code (vedata.rs line 1125) reads the checkpoint at
index `num_checkpoints`, which is never written, so for an account with one
recorded checkpoint listing position 1 (whose current balance is 100) it
returns 0 while the latest recorded checkpoint set sums to 100. -/
theorem getVotes_reads_unwritten_index :
    get_votes 1 cpVotes (fun _ => 1) uhVotes 10 = 0 ∧
    (cpVotes (1 - 1)).token_ids.foldl
      (fun r id => (r + _balance_of_nft 1 (uhVotes id) 10) % 2 ^ 128) 0 = 100 := by
  constructor <;> decide

/-- Claim C2: false on the code. Replaying from the point
`{bias 1000000, slope 1, ts 100}` to time 1000000 with an empty slope-change
schedule, `_supply_at` returns 200 while `_check_point`'s weekly replay loop
(`cpRun`) reaches bias 100 (slope 1): `_supply_at` advances `last_point.ts`
by `last_point.ts + t_i` instead of `t_i`, so the two stepping rules compute
different trajectories over the same interval. -/
theorem supplyAt_checkpoint_divergence :
    _supply_at (fun _ => 0) pSupply 1000000 = 200 ∧
    (cpRun stSupply 1000000).lp.bias = 100 ∧
    (cpRun stSupply 1000000).lp.slope = 1 := by
  refine ⟨by decide, by decide, by decide⟩

/-- Claim C5: false on the code. Account 1's latest checkpoint holds 600 ids
and is stamped with the current timestamp, the owner owns no positions, so the
capacity require (600 + 0 ≤ 1024) passes; but because the same-timestamp
checkpoint is both the copy source and the copy target,
`_move_all_delegates` appends the 600 old ids onto themselves and records a
1200-entry checkpoint — beyond the 1024 bound — without aborting. -/
theorem moveAllDelegates_exceeds_bound :
    Option.map (fun s : DelegStore => ((s.checkpoints 1 0).token_ids.length, s.num_checkpoints 1))
      (_move_all_delegates (fun _ => 0) [] 7 stDeleg600 3 0 1) = some (1200, 2) ∧
    MAX_DELEGATES < 1200 := by
  constructor <;> decide

/-- Claim C6 counterexample: starting from a store where account 1 has one
recorded checkpoint (index 0, timestamp 0, ids [42]), a move event at
timestamp 0 overwrites index 0 (as its timestamp matches) yet still increments
`num_checkpoints` to 2, leaving the checkpoint at index
`num_checkpoints - 1 = 1` unwritten (the default), so `num_checkpoints` no
longer equals the number of checkpoints actually recorded. -/
theorem moveTokenDelegates_inflates_counter :
    (_move_token_delegates 0 stDeleg42 0 1 7).isSome = true ∧
    (mtdAfter 0 stDeleg42 0 1 7).num_checkpoints 1 = 2 ∧
    (mtdAfter 0 stDeleg42 0 1 7).checkpoints 1 1 = Checkpoint.default ∧
    (mtdAfter 0 stDeleg42 0 1 7).checkpoints 1 0 = ⟨0, [42, 42]⟩ := by
  refine ⟨by decide, by decide, by decide, by decide⟩

/-- Claim C7: false on the code. After account 1 stores account 2 as its
delegatee, the helper `_delegates` resolves to 2, but the `delegates` entry
point returns its `delegator` argument unchanged (it never reads the
DELEGATES store), so the query answers 1 instead of 2. -/
theorem delegates_entry_ignores_store :
    delegates 1 = 1 ∧ _delegates (set_delegate (fun _ => 0) 1 2) 1 = 2 ∧ (1 : Nat) ≠ 2 := by
  decide

/-! ## Checkpoint-loop invariants (claims C9 and C10) -/

theorem cpStep_lp_nonneg (sc : Nat → Int) (ts bn : Nat) (ilp : Point) (bslope : Nat)
    (s : LoopState) :
    0 ≤ ((cpStep sc ts bn ilp bslope s).2).lp.bias ∧
    0 ≤ ((cpStep sc ts bn ilp bslope s).2).lp.slope := by
  simp only [cpStep]
  split <;> split <;> exact ⟨clamp0_nonneg _, clamp0_nonneg _⟩

theorem cpStep_ws_nonneg (sc : Nat → Int) (ts bn : Nat) (ilp : Point) (bslope : Nat)
    (s : LoopState) :
    ∀ w ∈ ((cpStep sc ts bn ilp bslope s).2).ws,
      w ∈ s.ws ∨ (0 ≤ w.2.bias ∧ 0 ≤ w.2.slope) := by
  simp only [cpStep]
  split <;> split
  case isTrue.isTrue => intro w hw; exact Or.inl hw
  case isTrue.isFalse =>
    intro w hw
    rcases List.mem_append.mp hw with h | h
    · exact Or.inl h
    · rw [List.mem_singleton] at h
      subst h
      exact Or.inr ⟨clamp0_nonneg _, clamp0_nonneg _⟩
  case isFalse.isTrue => intro w hw; exact Or.inl hw
  case isFalse.isFalse =>
    intro w hw
    rcases List.mem_append.mp hw with h | h
    · exact Or.inl h
    · rw [List.mem_singleton] at h
      subst h
      exact Or.inr ⟨clamp0_nonneg _, clamp0_nonneg _⟩

theorem cpLoop_ws_nonneg (sc : Nat → Int) (ts bn : Nat) (ilp : Point) (bslope : Nat) :
    ∀ fuel s, ∀ w ∈ (cpLoop sc ts bn ilp bslope fuel s).ws,
      w ∈ s.ws ∨ (0 ≤ w.2.bias ∧ 0 ≤ w.2.slope) := by
  intro fuel
  induction fuel with
  | zero => intro s w hw; exact Or.inl hw
  | succ n ih =>
    intro s w hw
    simp only [cpLoop] at hw
    by_cases hb : (cpStep sc ts bn ilp bslope s).1 = true
    · rw [if_pos hb] at hw
      exact cpStep_ws_nonneg sc ts bn ilp bslope s w hw
    · rw [if_neg hb] at hw
      rcases ih _ w hw with h | h
      · exact cpStep_ws_nonneg sc ts bn ilp bslope s w h
      · exact Or.inr h

theorem cpLoop_lp_nonneg (sc : Nat → Int) (ts bn : Nat) (ilp : Point) (bslope : Nat) :
    ∀ fuel s, 0 ≤ s.lp.bias ∧ 0 ≤ s.lp.slope →
      0 ≤ (cpLoop sc ts bn ilp bslope fuel s).lp.bias ∧
      0 ≤ (cpLoop sc ts bn ilp bslope fuel s).lp.slope := by
  intro fuel
  induction fuel with
  | zero => intro s h; exact h
  | succ n ih =>
    intro s h
    simp only [cpLoop]
    by_cases hb : (cpStep sc ts bn ilp bslope s).1 = true
    · rw [if_pos hb]; exact cpStep_lp_nonneg sc ts bn ilp bslope s
    · rw [if_neg hb]; exact ih _ (cpStep_lp_nonneg sc ts bn ilp bslope s)

theorem cpLoop_succ_lp_nonneg (sc : Nat → Int) (ts bn : Nat) (ilp : Point) (bslope : Nat)
    (fuel : Nat) (s : LoopState) :
    0 ≤ (cpLoop sc ts bn ilp bslope (fuel + 1) s).lp.bias ∧
    0 ≤ (cpLoop sc ts bn ilp bslope (fuel + 1) s).lp.slope := by
  simp only [cpLoop]
  by_cases hb : (cpStep sc ts bn ilp bslope s).1 = true
  · rw [if_pos hb]; exact cpStep_lp_nonneg sc ts bn ilp bslope s
  · rw [if_neg hb]
    exact cpLoop_lp_nonneg sc ts bn ilp bslope _ _ (cpStep_lp_nonneg sc ts bn ilp bslope s)

theorem cpRun_lp_nonneg (st : VeState) (ts : Nat) :
    0 ≤ (cpRun st ts).lp.bias ∧ 0 ≤ (cpRun st ts).lp.slope := by
  have h : cpRun st ts = cpLoop st.slope_changes ts current_block_number
      (lastPointOf st ts) (blockSlopeOf (lastPointOf st ts) ts) (254 + 1)
      (cpInitState st ts) := rfl
  rw [h]
  exact cpLoop_succ_lp_nonneg _ _ _ _ _ _ _

/-- Claim C9: every point `_check_point` writes into the global point history
(the intermediate weekly points and the final current point alike) has
`bias ≥ 0` and `slope ≥ 0`: negative intermediate values — including those
arising from the position delta fold — are clamped to zero before being
recorded, never recorded or signalled as errors. -/
theorem checkPoint_records_clamped (st : VeState) (token_id : Nat)
    (old_locked new_locked : LockedBalance) (ts : Nat) :
    ∀ w ∈ (_check_point st token_id old_locked new_locked ts).2,
      0 ≤ w.2.bias ∧ 0 ≤ w.2.slope := by
  intro w hw
  have hw2 : w ∈ cpWrites st token_id old_locked new_locked ts := hw
  rw [cpWrites] at hw2
  rcases List.mem_append.mp hw2 with h | h
  · rcases cpLoop_ws_nonneg st.slope_changes ts current_block_number
      (lastPointOf st ts) (blockSlopeOf (lastPointOf st ts) ts) 255
      (cpInitState st ts) w h with hin | hok
    · exact absurd hin (by simp [cpInitState])
    · exact hok
  · rw [List.mem_singleton] at h
    subst h
    show 0 ≤ (cpFinalPoint st token_id old_locked new_locked ts).bias ∧
      0 ≤ (cpFinalPoint st token_id old_locked new_locked ts).slope
    unfold cpFinalPoint
    split
    · exact ⟨clamp0_nonneg _, clamp0_nonneg _⟩
    · exact cpRun_lp_nonneg st ts

/-- Witness for C9 at a concrete input: the empty state's pure time
checkpoint at time 0 records the point `{0, 0, 0, 100}` at epoch 1, and that
write is clamped nonnegative. -/
theorem checkPoint_records_clamped_witness :
    ((1, (⟨0, 0, 0, 100⟩ : Point)) ∈
      (_check_point stEmptyVe 0 LockedBalance.default LockedBalance.default 0).2) ∧
    0 ≤ (Point.mk 0 0 0 100).bias ∧ 0 ≤ (Point.mk 0 0 0 100).slope :=
  ⟨by decide,
   checkPoint_records_clamped stEmptyVe 0 LockedBalance.default LockedBalance.default 0
     (1, ⟨0, 0, 0, 100⟩) (by decide)⟩

/-- Claim C4 counterexample: over the monotone (constant-100) block history
`histConst100`, `_find_block_epoch 50 1` returns epoch 0, whose recorded
block 100 is not `≤ 50`: when the target block is below the first recorded
block, no epoch satisfies the claimed property, yet the search still returns
0. -/
theorem findBlockEpoch_below_first_block :
    (∀ i j, i ≤ j → j ≤ 1 → (histConst100 i).blk ≤ (histConst100 j).blk) ∧
    _find_block_epoch histConst100 50 1 = 0 ∧
    50 < (histConst100 (_find_block_epoch histConst100 50 1)).blk :=
  ⟨fun _ _ _ _ => Nat.le_refl 100, by decide, by decide⟩

/-! ## Binary-search correctness (claims C4 and C10) -/

theorem fbeLoop_all_gt (hist : Nat → Point) (b : Nat) (h : ∀ e, b < (hist e).blk) :
    ∀ fuel mn mx, fbeLoop hist b fuel mn mx = mn := by
  intro fuel
  induction fuel with
  | zero => intro mn mx; rfl
  | succ n ih =>
    intro mn mx
    simp only [fbeLoop]
    by_cases hge : mn ≥ mx
    · rw [if_pos hge]
    · rw [if_neg hge]
      have hc : ¬ (hist ((mn + mx + 1) % 2 ^ 64 / 2)).blk ≤ b := Nat.not_le.mpr (h _)
      rw [if_neg hc]
      exact ih mn _

theorem fbeLoop_inv (hist : Nat → Point) (b maxE : Nat)
    (hme : maxE < 2 ^ 63) :
    ∀ fuel mn mx, mn ≤ mx → mx ≤ maxE → (hist mn).blk ≤ b →
      (mx = maxE ∨ b < (hist (mx + 1)).blk) → mx - mn < 2 ^ fuel →
      mn ≤ fbeLoop hist b fuel mn mx ∧ fbeLoop hist b fuel mn mx ≤ mx ∧
      (hist (fbeLoop hist b fuel mn mx)).blk ≤ b ∧
      (fbeLoop hist b fuel mn mx = maxE ∨ b < (hist (fbeLoop hist b fuel mn mx + 1)).blk) := by
  intro fuel
  induction fuel with
  | zero =>
    intro mn mx h1 h2 h3 h4 h5
    have h5' : mx - mn < 1 := by simpa using h5
    have heq : mn = mx := by omega
    refine ⟨Nat.le_refl _, h1, h3, ?_⟩
    rw [heq]
    exact h4
  | succ n ih =>
    intro mn mx h1 h2 h3 h4 h5
    simp only [fbeLoop]
    by_cases hge : mn ≥ mx
    · rw [if_pos hge]
      have heq : mn = mx := Nat.le_antisymm h1 hge
      refine ⟨Nat.le_refl _, h1, h3, ?_⟩
      rw [heq]
      exact h4
    · rw [if_neg hge]
      have hlt : mn < mx := Nat.not_le.mp hge
      have h64 : (2 : Nat) ^ 64 = 2 ^ 63 + 2 ^ 63 := by norm_num
      have hsum : (mn + mx + 1) % 2 ^ 64 = mn + mx + 1 := by
        apply Nat.mod_eq_of_lt
        omega
      rw [hsum]
      have hm1 : mn + 1 ≤ (mn + mx + 1) / 2 := by omega
      have hm2 : (mn + mx + 1) / 2 ≤ mx := by omega
      have hp : (2 : Nat) ^ (n + 1) = 2 ^ n + 2 ^ n := by
        rw [pow_succ, Nat.mul_two]
      by_cases hc : (hist ((mn + mx + 1) / 2)).blk ≤ b
      · rw [if_pos hc]
        have hfuel : mx - (mn + mx + 1) / 2 < 2 ^ n := by omega
        obtain ⟨a1, a2, a3, a4⟩ := ih ((mn + mx + 1) / 2) mx hm2 h2 hc h4 hfuel
        exact ⟨Nat.le_trans (by omega) a1, a2, a3, a4⟩
      · rw [if_neg hc]
        have hmsub : ((mn + mx + 1) / 2 + (2 ^ 64 - 1)) % 2 ^ 64 = (mn + mx + 1) / 2 - 1 := by
          omega
        rw [hmsub]
        have hfuel : ((mn + mx + 1) / 2 - 1) - mn < 2 ^ n := by omega
        have hhigh : ((mn + mx + 1) / 2 - 1) = maxE ∨
            b < (hist (((mn + mx + 1) / 2 - 1) + 1)).blk := by
          right
          have he1 : ((mn + mx + 1) / 2 - 1) + 1 = (mn + mx + 1) / 2 := by omega
          rw [he1]
          exact Nat.not_le.mp hc
        obtain ⟨a1, a2, a3, a4⟩ := ih mn ((mn + mx + 1) / 2 - 1) (by omega) (by omega) h3 hhigh hfuel
        exact ⟨a1, Nat.le_trans a2 (by omega), a3, a4⟩

theorem fbe_greatest_aux (hist : Nat → Point) (b maxE : Nat)
    (hmono : ∀ i j, i ≤ j → j ≤ maxE → (hist i).blk ≤ (hist j).blk)
    (hme : maxE < 2 ^ 63) (hb : (hist 0).blk ≤ b) :
    _find_block_epoch hist b maxE ≤ maxE ∧
    (hist (_find_block_epoch hist b maxE)).blk ≤ b ∧
    ∀ e, e ≤ maxE → (hist e).blk ≤ b → e ≤ _find_block_epoch hist b maxE := by
  unfold _find_block_epoch
  have h0 : maxE - 0 < 2 ^ 128 := by
    have hle : (2 : Nat) ^ 63 ≤ 2 ^ 128 := Nat.pow_le_pow_right (by norm_num) (by norm_num)
    omega
  obtain ⟨a1, a2, a3, a4⟩ := fbeLoop_inv hist b maxE hme 128 0 maxE
    (Nat.zero_le _) (Nat.le_refl _) hb (Or.inl rfl) h0
  refine ⟨a2, a3, ?_⟩
  intro e he hble
  rcases a4 with h | h
  · omega
  · by_contra hgt
    push_neg at hgt
    have := hmono (fbeLoop hist b 128 0 maxE + 1) e (by omega) he
    omega

/-- Claim C4 amended: when the recorded blocks are monotone over
`[0, max_epoch]`, `max_epoch < 2^63` (so the u64 midpoint sum cannot wrap)
and the target block is at least the first recorded block,
`_find_block_epoch` returns the greatest epoch `e ≤ max_epoch` with
`point[e].blk ≤ b`, its 128-iteration cap sufficing. -/
theorem findBlockEpoch_greatest (hist : Nat → Point) (b maxE : Nat)
    (hmono : ∀ i j, i ≤ j → j ≤ maxE → (hist i).blk ≤ (hist j).blk)
    (hme : maxE < 2 ^ 63) (hb : (hist 0).blk ≤ b) :
    _find_block_epoch hist b maxE ≤ maxE ∧
    (hist (_find_block_epoch hist b maxE)).blk ≤ b ∧
    ∀ e, e ≤ maxE → (hist e).blk ≤ b → e ≤ _find_block_epoch hist b maxE :=
  fbe_greatest_aux hist b maxE hmono hme hb

/-- Witness for the amended C4 at a concrete input: over the history whose
epoch `e` has block `e`, searching for block 2 below epoch 5 yields epoch 2,
the greatest epoch with recorded block at most 2. -/
theorem findBlockEpoch_greatest_witness :
    (∀ i j, i ≤ j → j ≤ 5 → ((fun e => Point.mk 0 0 0 e) i).blk ≤ ((fun e => Point.mk 0 0 0 e) j).blk) ∧
    (5 : Nat) < 2 ^ 63 ∧
    ((fun e => Point.mk 0 0 0 e) 0).blk ≤ 2 ∧
    (_find_block_epoch (fun e => Point.mk 0 0 0 e) 2 5 ≤ 5 ∧
     ((fun e => Point.mk 0 0 0 e) (_find_block_epoch (fun e => Point.mk 0 0 0 e) 2 5)).blk ≤ 2 ∧
     ∀ e, e ≤ 5 → ((fun e => Point.mk 0 0 0 e) e).blk ≤ 2 →
       e ≤ _find_block_epoch (fun e => Point.mk 0 0 0 e) 2 5) :=
  ⟨fun _ _ hij _ => hij, by norm_num, by decide,
   findBlockEpoch_greatest (fun e => Point.mk 0 0 0 e) 2 5 (fun _ _ hij _ => hij)
     (by norm_num) (by decide)⟩

/-! ## Monotone decay (claim C3) -/

theorem mul_abs_lt {Q d : Int} (h0 : 0 ≤ Q) (h1 : Q < 2 ^ 63) (h2 : -(2 ^ 64) < d)
    (h3 : d < 2 ^ 64) : -(2 ^ 127) < Q * d ∧ Q * d < 2 ^ 127 := by
  have key : ∀ x : Int, 0 ≤ x → x < 2 ^ 64 → Q * x < 2 ^ 127 := by
    intro x hx0 hx1
    have hlt : Q * x < 2 ^ 63 * 2 ^ 64 := by
      rcases eq_or_lt_of_le hx0 with h | h
      · rw [← h, mul_zero]; positivity
      · exact mul_lt_mul'' h1 hx1 h0 (le_of_lt h)
    calc Q * x < 2 ^ 63 * 2 ^ 64 := hlt
      _ = 2 ^ 127 := by norm_num
  constructor
  · rcases le_or_lt 0 d with h | h
    · have hn : 0 ≤ Q * d := mul_nonneg h0 h
      have hp : (0 : Int) < 2 ^ 127 := by positivity
      omega
    · have hx : Q * (-d) < 2 ^ 127 := key (-d) (by omega) (by omega)
      have he : Q * (-d) = -(Q * d) := by ring
      omega
  · rcases le_or_lt 0 d with h | h
    · exact key d h h3
    · have hn : Q * d ≤ 0 := mul_nonpos_of_nonneg_of_nonpos h0 (le_of_lt h)
      have hp : (0 : Int) < 2 ^ 127 := by positivity
      omega

theorem wrap128_small {Q d : Int} (h0 : 0 ≤ Q) (h1 : Q < 2 ^ 63) (h2 : -(2 ^ 64) < d)
    (h3 : d < 2 ^ 64) : wrap128 (Q * d) = Q * d := by
  obtain ⟨hl, hr⟩ := mul_abs_lt h0 h1 h2 h3
  exact wrap128_eq_self (by omega) hr

theorem slope_quot_lt (amount : Nat) (ha : amount < 2 ^ 86) :
    amount / MAXTIME < 2 ^ 63 := by
  have h1 : amount / MAXTIME ≤ amount / 2 ^ 23 := by
    apply Nat.div_le_div_left
    · norm_num [MAXTIME]
    · norm_num
  have h2 : amount / 2 ^ 23 < 2 ^ 63 := by
    rw [Nat.div_lt_iff_lt_mul (by norm_num : (0:Nat) < 2 ^ 23)]
    calc amount < 2 ^ 86 := ha
      _ ≤ 2 ^ 63 * 2 ^ 23 := by norm_num
  omega

theorem balance_of_userWrittenPoint (amount end_ ts0 uep : Nat) (hist : Nat → Point)
    (ha : amount < 2 ^ 86) (hts0 : ts0 < 2 ^ 64) (hend : end_ < 2 ^ 64)
    (hep : uep ≠ 0) (hh : hist uep = userWrittenPoint ⟨amount, end_⟩ ts0)
    (hcase : end_ > ts0 ∧ amount > 0) :
    ∀ t : Nat, t < 2 ^ 64 →
      _balance_of_nft uep hist t =
        (clamp0 ((amount / MAXTIME : Nat) * ((end_ : Int) - (t : Int)))).toNat := by
  intro t ht
  have hq : amount / MAXTIME < 2 ^ 63 := slope_quot_lt amount ha
  have hq0 : (0 : Int) ≤ ((amount / MAXTIME : Nat) : Int) := Int.natCast_nonneg _
  have hqlt : ((amount / MAXTIME : Nat) : Int) < 2 ^ 63 := by
    have h63 : ((2 ^ 63 : Nat) : Int) = 2 ^ 63 := by norm_num
    omega
  have htI : ((t : Nat) : Int) < 2 ^ 64 := by
    have h64 : ((2 ^ 64 : Nat) : Int) = 2 ^ 64 := by norm_num
    omega
  have hts0I : ((ts0 : Nat) : Int) < 2 ^ 64 := by
    have h64 : ((2 ^ 64 : Nat) : Int) = 2 ^ 64 := by norm_num
    omega
  have hendI : ((end_ : Nat) : Int) < 2 ^ 64 := by
    have h64 : ((2 ^ 64 : Nat) : Int) = 2 ^ 64 := by norm_num
    omega
  have ht0 : (0 : Int) ≤ ((t : Nat) : Int) := Int.natCast_nonneg _
  have hts00 : (0 : Int) ≤ ((ts0 : Nat) : Int) := Int.natCast_nonneg _
  have hend0 : (0 : Int) ≤ ((end_ : Nat) : Int) := Int.natCast_nonneg _
  unfold _balance_of_nft
  rw [if_neg hep, hh]
  simp only [userWrittenPoint, uPointOf, if_pos hcase, Int.ofNat_eq_natCast]
  have hwq : wrap128 ((amount / MAXTIME : Nat) : Int) = ((amount / MAXTIME : Nat) : Int) := by
    apply wrap128_eq_self
    · omega
    · have : (2 : Int) ^ 63 < 2 ^ 127 := by norm_num
      omega
  rw [hwq]
  have hcast : (((end_ - ts0 : Nat) : Nat) : Int) = (end_ : Int) - (ts0 : Int) :=
    Nat.cast_sub (le_of_lt hcase.1)
  rw [hcast]
  have hbias : wrap128 (((amount / MAXTIME : Nat) : Int) * ((end_ : Int) - (ts0 : Int))) =
      ((amount / MAXTIME : Nat) : Int) * ((end_ : Int) - (ts0 : Int)) := by
    apply wrap128_small hq0 hqlt <;> omega
  rw [hbias]
  have hinner : wrap128 (((amount / MAXTIME : Nat) : Int) * ((t : Int) - (ts0 : Int))) =
      ((amount / MAXTIME : Nat) : Int) * ((t : Int) - (ts0 : Int)) := by
    apply wrap128_small hq0 hqlt <;> omega
  rw [hinner]
  have hdiff : ((amount / MAXTIME : Nat) : Int) * ((end_ : Int) - (ts0 : Int)) -
      ((amount / MAXTIME : Nat) : Int) * ((t : Int) - (ts0 : Int)) =
      ((amount / MAXTIME : Nat) : Int) * ((end_ : Int) - (t : Int)) := by
    ring
  rw [hdiff]
  have houter : wrap128 (((amount / MAXTIME : Nat) : Int) * ((end_ : Int) - (t : Int))) =
      ((amount / MAXTIME : Nat) : Int) * ((end_ : Int) - (t : Int)) := by
    apply wrap128_small hq0 hqlt <;> omega
  rw [houter]

/-- Claim C3: for a position whose per-position history is non-empty, whose
latest recorded point is the one `_check_point` writes for a lock
`{amount, end}` at checkpoint time `ts0`, and which is not written again,
`_balance_of_nft` is non-increasing in `t`, and it is exactly 0 at the lock's
end time and at any later time (all quantities in their machine ranges,
`amount < 2^86` keeping the decay arithmetic within i128). -/
theorem balanceOfNft_monotone_decay (amount end_ ts0 uep t1 t2 : Nat) (hist : Nat → Point)
    (ha : amount < 2 ^ 86) (hts0 : ts0 < 2 ^ 64) (hend : end_ < 2 ^ 64)
    (h1 : t1 < 2 ^ 64) (h2 : t2 < 2 ^ 64) (hep : uep ≠ 0)
    (hh : hist uep = userWrittenPoint ⟨amount, end_⟩ ts0) (h12 : t1 ≤ t2) :
    _balance_of_nft uep hist t2 ≤ _balance_of_nft uep hist t1 ∧
    (end_ ≤ t2 → _balance_of_nft uep hist t2 = 0) := by
  by_cases hcase : end_ > ts0 ∧ amount > 0
  · have hf := balance_of_userWrittenPoint amount end_ ts0 uep hist ha hts0 hend hep hh hcase
    rw [hf t1 h1, hf t2 h2]
    have hq0 : (0 : Int) ≤ (amount / MAXTIME : Nat) := Int.natCast_nonneg _
    constructor
    · apply Int.toNat_le_toNat
      apply clamp0_mono
      apply mul_le_mul_of_nonneg_left _ hq0
      have : (t1 : Int) ≤ (t2 : Int) := by exact_mod_cast h12
      omega
    · intro hle
      have hnp : (amount / MAXTIME : Nat) * ((end_ : Int) - (t2 : Int)) ≤ 0 := by
        apply mul_nonpos_of_nonneg_of_nonpos hq0
        have : (end_ : Int) ≤ (t2 : Int) := by exact_mod_cast hle
        omega
      rw [clamp0_eq_zero_of_nonpos hnp]
      rfl
  · have hz : ∀ t : Nat, _balance_of_nft uep hist t = 0 := by
      intro t
      unfold _balance_of_nft
      rw [if_neg hep, hh]
      simp only [userWrittenPoint, uPointOf, if_neg hcase, Point.default]
      have h0 : wrap128 ((0 : Int) * (Int.ofNat t - Int.ofNat ts0)) = 0 := by
        rw [zero_mul]
        exact wrap128_eq_self (by norm_num) (by norm_num)
      rw [h0, sub_zero]
      rw [wrap128_eq_self (by norm_num) (by norm_num)]
      rfl
    rw [hz t1, hz t2]
    exact ⟨Nat.le_refl 0, fun _ => rfl⟩

/-- Witness for C3 at a concrete input: a lock of amount `15724800` (slope 1)
ending at time 100, checkpointed at time 0, queried at times 10 and 100. -/
theorem balanceOfNft_monotone_decay_witness :
    ((15724800 : Nat) < 2 ^ 86 ∧ (0 : Nat) < 2 ^ 64 ∧ (100 : Nat) < 2 ^ 64 ∧
     (10 : Nat) < 2 ^ 64 ∧ (1 : Nat) ≠ 0 ∧ (10 : Nat) ≤ 100) ∧
    (_balance_of_nft 1 (fun _ => userWrittenPoint ⟨15724800, 100⟩ 0) 100 ≤
      _balance_of_nft 1 (fun _ => userWrittenPoint ⟨15724800, 100⟩ 0) 10 ∧
     (100 ≤ 100 → _balance_of_nft 1 (fun _ => userWrittenPoint ⟨15724800, 100⟩ 0) 100 = 0)) :=
  ⟨⟨by norm_num, by norm_num, by norm_num, by norm_num, by norm_num, by norm_num⟩,
   balanceOfNft_monotone_decay 15724800 100 0 1 10 100
     (fun _ => userWrittenPoint ⟨15724800, 100⟩ 0)
     (by norm_num) (by norm_num) (by norm_num) (by norm_num) (by norm_num)
     (by norm_num) rfl (by norm_num)⟩

/-! ## Merge semantics (claim C8) -/

theorem checkPoint_locked_eq (st : VeState) (tok : Nat) (o n : LockedBalance) (ts : Nat) :
    (_check_point st tok o n ts).1.locked = st.locked := rfl

theorem merge_locked_form (st : VeState) (fromId toId ts : Nat) :
    (merge st fromId toId ts).1.locked = fun k =>
      if k = toId then
        (⟨((st.locked toId).amount + (st.locked fromId).amount) % 2 ^ 128,
          if (if (st.locked fromId).end_ ≥ (st.locked toId).end_ then (st.locked fromId).end_
              else (st.locked toId).end_) ≠ 0 then
            (if (st.locked fromId).end_ ≥ (st.locked toId).end_ then (st.locked fromId).end_
             else (st.locked toId).end_)
          else (st.locked toId).end_⟩ : LockedBalance)
      else if k = fromId then LockedBalance.default else st.locked k := rfl

/-- Claim C8: a merge of two distinct positions leaves the destination lock
holding the sum of the two amounts with the later of the two end times,
resets the source lock to the default `{0, 0}`, and performs no external
asset transfer (the MERGE_TYPE path skips `transfer_from`). The amount
hypothesis keeps the u128 sum from wrapping. -/
theorem merge_combines_locks (st : VeState) (fromId toId ts : Nat)
    (hne : fromId ≠ toId)
    (hsum : (st.locked fromId).amount + (st.locked toId).amount < 2 ^ 128) :
    ((merge st fromId toId ts).1.locked toId).amount =
      (st.locked fromId).amount + (st.locked toId).amount ∧
    ((merge st fromId toId ts).1.locked toId).end_ =
      max (st.locked fromId).end_ (st.locked toId).end_ ∧
    (merge st fromId toId ts).1.locked fromId = LockedBalance.default ∧
    (merge st fromId toId ts).2 = false := by
  rw [merge_locked_form]
  refine ⟨?_, ?_, ?_, ?_⟩
  · simp only [if_pos rfl]
    show ((st.locked toId).amount + (st.locked fromId).amount) % 2 ^ 128 = _
    omega
  · simp only [if_pos rfl]
    show (if (if (st.locked fromId).end_ ≥ (st.locked toId).end_ then (st.locked fromId).end_
              else (st.locked toId).end_) ≠ 0 then _ else (st.locked toId).end_) = _
    split_ifs <;> omega
  · simp [hne]
  · show (((st.locked fromId).amount != 0) && (MERGE_TYPE != MERGE_TYPE)) = false
    simp

/-- Witness for C8 at a concrete input: merging position 1 {500, 1209600}
into position 2 {300, 1814400} in `stMerge` yields lock {800, 1814400} on
position 2, clears position 1 and performs no transfer. -/
theorem merge_combines_locks_witness :
    ((1 : Nat) ≠ 2 ∧ (stMerge.locked 1).amount + (stMerge.locked 2).amount < 2 ^ 128) ∧
    (((merge stMerge 1 2 0).1.locked 2).amount =
      (stMerge.locked 1).amount + (stMerge.locked 2).amount ∧
     ((merge stMerge 1 2 0).1.locked 2).end_ =
      max (stMerge.locked 1).end_ (stMerge.locked 2).end_ ∧
     (merge stMerge 1 2 0).1.locked 1 = LockedBalance.default ∧
     (merge stMerge 1 2 0).2 = false) :=
  ⟨⟨by norm_num, by norm_num [stMerge]⟩,
   merge_combines_locks stMerge 1 2 0 (by norm_num) (by norm_num [stMerge])⟩

/-! ## Delegate-checkpoint write discipline (claim C6) -/

theorem setNum_num_self (st : DelegStore) (a n : Nat) :
    (st.setNum a n).num_checkpoints a = n := by
  simp [DelegStore.setNum]

theorem setNum_num_ne (st : DelegStore) (a n x : Nat) (h : x ≠ a) :
    (st.setNum a n).num_checkpoints x = st.num_checkpoints x := by
  simp [DelegStore.setNum, h]

theorem setCp_cp_self (st : DelegStore) (a i : Nat) (c : Checkpoint) :
    (st.setCp a i c).checkpoints a i = c := by
  simp [DelegStore.setCp]

theorem setCp_cp_ne (st : DelegStore) (a i : Nat) (c : Checkpoint) (x y : Nat)
    (h : ¬(x = a ∧ y = i)) :
    (st.setCp a i c).checkpoints x y = st.checkpoints x y := by
  simp only [DelegStore.setCp]
  rw [if_neg h]

theorem writeTwo_num_self (st : DelegStore) (a1 i1 : Nat) (c1 : Checkpoint) (n1 : Nat)
    (a2 i2 : Nat) (c2 : Checkpoint) (n2 : Nat) :
    (((((st.setCp a1 i1 c1).setNum a1 n1).setCp a2 i2 c2).setNum a2 n2).num_checkpoints) a2 = n2 :=
  setNum_num_self _ _ _

theorem writeTwo_num_first (st : DelegStore) (a1 i1 : Nat) (c1 : Checkpoint) (n1 : Nat)
    (a2 i2 : Nat) (c2 : Checkpoint) (n2 : Nat) (h : a1 ≠ a2) :
    (((((st.setCp a1 i1 c1).setNum a1 n1).setCp a2 i2 c2).setNum a2 n2).num_checkpoints) a1 = n1 :=
  (setNum_num_ne _ _ _ _ h).trans (setNum_num_self _ _ _)

theorem writeTwo_num_other (st : DelegStore) (a1 i1 : Nat) (c1 : Checkpoint) (n1 : Nat)
    (a2 i2 : Nat) (c2 : Checkpoint) (n2 : Nat) (x : Nat) (h1 : x ≠ a1) (h2 : x ≠ a2) :
    (((((st.setCp a1 i1 c1).setNum a1 n1).setCp a2 i2 c2).setNum a2 n2).num_checkpoints) x =
      st.num_checkpoints x :=
  (setNum_num_ne _ _ _ _ h2).trans (setNum_num_ne _ _ _ _ h1)

theorem writeTwo_cp_self2 (st : DelegStore) (a1 i1 : Nat) (c1 : Checkpoint) (n1 : Nat)
    (a2 i2 : Nat) (c2 : Checkpoint) (n2 : Nat) :
    (((((st.setCp a1 i1 c1).setNum a1 n1).setCp a2 i2 c2).setNum a2 n2).checkpoints) a2 i2 = c2 :=
  setCp_cp_self _ _ _ _

theorem writeTwo_cp_self1 (st : DelegStore) (a1 i1 : Nat) (c1 : Checkpoint) (n1 : Nat)
    (a2 i2 : Nat) (c2 : Checkpoint) (n2 : Nat) (h : ¬(a1 = a2 ∧ i1 = i2)) :
    (((((st.setCp a1 i1 c1).setNum a1 n1).setCp a2 i2 c2).setNum a2 n2).checkpoints) a1 i1 = c1 :=
  (setCp_cp_ne _ _ _ _ _ _ h).trans (setCp_cp_self _ _ _ _)

theorem writeTwo_cp_ne (st : DelegStore) (a1 i1 : Nat) (c1 : Checkpoint) (n1 : Nat)
    (a2 i2 : Nat) (c2 : Checkpoint) (n2 : Nat) (x y : Nat)
    (h2 : ¬(x = a2 ∧ y = i2)) (h1 : ¬(x = a1 ∧ y = i1)) :
    (((((st.setCp a1 i1 c1).setNum a1 n1).setCp a2 i2 c2).setNum a2 n2).checkpoints) x y =
      st.checkpoints x y :=
  (setCp_cp_ne _ _ _ _ _ _ h2).trans (setCp_cp_ne _ _ _ _ _ _ h1)

theorem fwctw_congr (ts : Nat) (st1 st2 : DelegStore) (a : Nat)
    (hn : st1.num_checkpoints a = st2.num_checkpoints a)
    (hc : ∀ i, st1.checkpoints a i = st2.checkpoints a i) :
    _find_what_checkpoint_to_write ts st1 a = _find_what_checkpoint_to_write ts st2 a := by
  simp only [_find_what_checkpoint_to_write]
  rw [hn, hc]

/-! ## Delegate-checkpoint write discipline, main theorem (claim C6) -/

theorem cp_update_ts (c : Checkpoint) (l : List Nat) :
    ({ c with token_ids := l }).timestamp = c.timestamp := rfl

/-- Claim C6 amended: a move-token-delegates event between two distinct
non-null accounts with a positive token id, whose destination capacity check
passes, succeeds and writes exactly one checkpoint per side — at index
`_find_what_checkpoint_to_write` (the previous `num_checkpoints - 1` when that
checkpoint's u64-cast timestamp equals the operation timestamp, else the fresh
index `num_checkpoints`) — always setting `num_checkpoints` to its previous
value plus one (so after a same-timestamp overwrite the counter exceeds the
number of checkpoints actually recorded); every other checkpoint slot of every
account is left unchanged, and no stored checkpoint timestamp is ever modified
(in particular the written one keeps the timestamp already present at its
slot). -/
theorem moveTokenDelegates_discipline (ts : Nat) (st : DelegStore) (src dst token_id : Nat)
    (hne : src ≠ dst) (htok : 0 < token_id) (hsrc : src ≠ 0) (hdst : dst ≠ 0)
    (hcap : (if st.num_checkpoints dst > 0 then st.checkpoints dst (st.num_checkpoints dst - 1)
             else st.checkpoints dst 0).token_ids.length + 1 ≤ MAX_DELEGATES) :
    (_move_token_delegates ts st src dst token_id).isSome = true ∧
    (mtdAfter ts st src dst token_id).num_checkpoints src = st.num_checkpoints src + 1 ∧
    (mtdAfter ts st src dst token_id).num_checkpoints dst = st.num_checkpoints dst + 1 ∧
    (_find_what_checkpoint_to_write ts st src = st.num_checkpoints src ∨
     (0 < st.num_checkpoints src ∧
      _find_what_checkpoint_to_write ts st src = st.num_checkpoints src - 1)) ∧
    (_find_what_checkpoint_to_write ts st dst = st.num_checkpoints dst ∨
     (0 < st.num_checkpoints dst ∧
      _find_what_checkpoint_to_write ts st dst = st.num_checkpoints dst - 1)) ∧
    (∀ i, i ≠ _find_what_checkpoint_to_write ts st src →
      (mtdAfter ts st src dst token_id).checkpoints src i = st.checkpoints src i) ∧
    (∀ i, i ≠ _find_what_checkpoint_to_write ts st dst →
      (mtdAfter ts st src dst token_id).checkpoints dst i = st.checkpoints dst i) ∧
    (∀ a, a ≠ src → a ≠ dst →
      (mtdAfter ts st src dst token_id).num_checkpoints a = st.num_checkpoints a) ∧
    (∀ a i, a ≠ src → a ≠ dst →
      (mtdAfter ts st src dst token_id).checkpoints a i = st.checkpoints a i) ∧
    (∀ a i, ((mtdAfter ts st src dst token_id).checkpoints a i).timestamp =
      (st.checkpoints a i).timestamp) := by
  have hds : dst ≠ src := fun h => hne h.symm
  have e1 : (((st.setCp src (_find_what_checkpoint_to_write ts st src)
      { st.checkpoints src (_find_what_checkpoint_to_write ts st src) with
        token_ids := (st.checkpoints src (_find_what_checkpoint_to_write ts st src)).token_ids ++
          (if st.num_checkpoints src > 0 then st.checkpoints src (st.num_checkpoints src - 1)
           else st.checkpoints src 0).token_ids.filter (fun id => id != token_id) }).setNum src
      (st.num_checkpoints src + 1)).num_checkpoints) dst = st.num_checkpoints dst := by
    rw [setNum_num_ne _ _ _ _ hds]
    rfl
  have e2 : ∀ i, (((st.setCp src (_find_what_checkpoint_to_write ts st src)
      { st.checkpoints src (_find_what_checkpoint_to_write ts st src) with
        token_ids := (st.checkpoints src (_find_what_checkpoint_to_write ts st src)).token_ids ++
          (if st.num_checkpoints src > 0 then st.checkpoints src (st.num_checkpoints src - 1)
           else st.checkpoints src 0).token_ids.filter (fun id => id != token_id) }).setNum src
      (st.num_checkpoints src + 1)).checkpoints) dst i = st.checkpoints dst i := by
    intro i
    exact setCp_cp_ne st src _ _ dst i (fun h => hds h.1)
  have e3 : _find_what_checkpoint_to_write ts ((st.setCp src (_find_what_checkpoint_to_write ts st src)
      { st.checkpoints src (_find_what_checkpoint_to_write ts st src) with
        token_ids := (st.checkpoints src (_find_what_checkpoint_to_write ts st src)).token_ids ++
          (if st.num_checkpoints src > 0 then st.checkpoints src (st.num_checkpoints src - 1)
           else st.checkpoints src 0).token_ids.filter (fun id => id != token_id) }).setNum src
      (st.num_checkpoints src + 1)) dst = _find_what_checkpoint_to_write ts st dst :=
    fwctw_congr ts _ st dst e1 e2
  have hmtd : _move_token_delegates ts st src dst token_id = some
      (((((st.setCp src (_find_what_checkpoint_to_write ts st src)
        { st.checkpoints src (_find_what_checkpoint_to_write ts st src) with
          token_ids := (st.checkpoints src (_find_what_checkpoint_to_write ts st src)).token_ids ++
            (if st.num_checkpoints src > 0 then st.checkpoints src (st.num_checkpoints src - 1)
             else st.checkpoints src 0).token_ids.filter (fun id => id != token_id) }).setNum src
        (st.num_checkpoints src + 1)).setCp dst (_find_what_checkpoint_to_write ts st dst)
        { (((st.setCp src (_find_what_checkpoint_to_write ts st src)
            { st.checkpoints src (_find_what_checkpoint_to_write ts st src) with
              token_ids := (st.checkpoints src (_find_what_checkpoint_to_write ts st src)).token_ids ++
                (if st.num_checkpoints src > 0 then st.checkpoints src (st.num_checkpoints src - 1)
                 else st.checkpoints src 0).token_ids.filter (fun id => id != token_id) }).setNum src
            (st.num_checkpoints src + 1)).checkpoints) dst (_find_what_checkpoint_to_write ts st dst) with
          token_ids := ((((st.setCp src (_find_what_checkpoint_to_write ts st src)
            { st.checkpoints src (_find_what_checkpoint_to_write ts st src) with
              token_ids := (st.checkpoints src (_find_what_checkpoint_to_write ts st src)).token_ids ++
                (if st.num_checkpoints src > 0 then st.checkpoints src (st.num_checkpoints src - 1)
                 else st.checkpoints src 0).token_ids.filter (fun id => id != token_id) }).setNum src
            (st.num_checkpoints src + 1)).checkpoints) dst (_find_what_checkpoint_to_write ts st dst)).token_ids ++
            (if st.num_checkpoints dst > 0 then st.checkpoints dst (st.num_checkpoints dst - 1)
             else st.checkpoints dst 0).token_ids.filter (fun id => id != token_id) }).setNum dst
        (st.num_checkpoints dst + 1))) := by
    simp only [_move_token_delegates]
    rw [if_pos (And.intro hne htok), if_pos hsrc, if_pos hdst]
    simp only [e3, e1, e2]
    rw [if_pos hcap]
  have hafter : mtdAfter ts st src dst token_id =
      ((((st.setCp src (_find_what_checkpoint_to_write ts st src)
        { st.checkpoints src (_find_what_checkpoint_to_write ts st src) with
          token_ids := (st.checkpoints src (_find_what_checkpoint_to_write ts st src)).token_ids ++
            (if st.num_checkpoints src > 0 then st.checkpoints src (st.num_checkpoints src - 1)
             else st.checkpoints src 0).token_ids.filter (fun id => id != token_id) }).setNum src
        (st.num_checkpoints src + 1)).setCp dst (_find_what_checkpoint_to_write ts st dst)
        { (((st.setCp src (_find_what_checkpoint_to_write ts st src)
            { st.checkpoints src (_find_what_checkpoint_to_write ts st src) with
              token_ids := (st.checkpoints src (_find_what_checkpoint_to_write ts st src)).token_ids ++
                (if st.num_checkpoints src > 0 then st.checkpoints src (st.num_checkpoints src - 1)
                 else st.checkpoints src 0).token_ids.filter (fun id => id != token_id) }).setNum src
            (st.num_checkpoints src + 1)).checkpoints) dst (_find_what_checkpoint_to_write ts st dst) with
          token_ids := ((((st.setCp src (_find_what_checkpoint_to_write ts st src)
            { st.checkpoints src (_find_what_checkpoint_to_write ts st src) with
              token_ids := (st.checkpoints src (_find_what_checkpoint_to_write ts st src)).token_ids ++
                (if st.num_checkpoints src > 0 then st.checkpoints src (st.num_checkpoints src - 1)
                 else st.checkpoints src 0).token_ids.filter (fun id => id != token_id) }).setNum src
            (st.num_checkpoints src + 1)).checkpoints) dst (_find_what_checkpoint_to_write ts st dst)).token_ids ++
            (if st.num_checkpoints dst > 0 then st.checkpoints dst (st.num_checkpoints dst - 1)
             else st.checkpoints dst 0).token_ids.filter (fun id => id != token_id) }).setNum dst
        (st.num_checkpoints dst + 1)) := by
    rw [mtdAfter, hmtd]
    rfl
  refine ⟨by rw [hmtd]; rfl, ?_, ?_, ?_, ?_, ?_, ?_, ?_, ?_, ?_⟩
  · rw [hafter]
    exact writeTwo_num_first _ _ _ _ _ _ _ _ _ hne
  · rw [hafter]
    exact writeTwo_num_self _ _ _ _ _ _ _ _ _
  · simp only [_find_what_checkpoint_to_write]
    by_cases h : st.num_checkpoints src > 0 ∧
        (st.checkpoints src (st.num_checkpoints src - 1)).timestamp % 2 ^ 64 = ts
    · rw [if_pos h]
      exact Or.inr ⟨h.1, rfl⟩
    · rw [if_neg h]
      exact Or.inl rfl
  · simp only [_find_what_checkpoint_to_write]
    by_cases h : st.num_checkpoints dst > 0 ∧
        (st.checkpoints dst (st.num_checkpoints dst - 1)).timestamp % 2 ^ 64 = ts
    · rw [if_pos h]
      exact Or.inr ⟨h.1, rfl⟩
    · rw [if_neg h]
      exact Or.inl rfl
  · intro i hi
    rw [hafter]
    exact writeTwo_cp_ne _ _ _ _ _ _ _ _ _ _ _ (fun h => hne h.1) (fun h => hi h.2)
  · intro i hi
    rw [hafter]
    exact writeTwo_cp_ne _ _ _ _ _ _ _ _ _ _ _ (fun h => hi h.2) (fun h => hds h.1)
  · intro a ha1 ha2
    rw [hafter]
    exact writeTwo_num_other _ _ _ _ _ _ _ _ _ _ ha1 ha2
  · intro a i ha1 ha2
    rw [hafter]
    exact writeTwo_cp_ne _ _ _ _ _ _ _ _ _ _ _ (fun h => ha2 h.1) (fun h => ha1 h.1)
  · intro a i
    rw [hafter]
    by_cases h2 : a = dst ∧ i = _find_what_checkpoint_to_write ts st dst
    · obtain ⟨rfl, rfl⟩ := h2
      rw [writeTwo_cp_self2, cp_update_ts]
      exact congrArg Checkpoint.timestamp (e2 _)
    · by_cases h1 : a = src ∧ i = _find_what_checkpoint_to_write ts st src
      · obtain ⟨rfl, rfl⟩ := h1
        rw [writeTwo_cp_self1 _ _ _ _ _ _ _ _ _ h2, cp_update_ts]
      · rw [writeTwo_cp_ne _ _ _ _ _ _ _ _ _ _ _ h2 h1]

/-- Witness for the amended C6 at a concrete input: the empty delegation
store, moving token 5 from account 1 to account 2 at time 9. -/
theorem moveTokenDelegates_discipline_witness :
    ((1 : Nat) ≠ 2 ∧ (0 : Nat) < 5 ∧ (1 : Nat) ≠ 0 ∧ (2 : Nat) ≠ 0 ∧
     (if stDeleg0.num_checkpoints 2 > 0 then stDeleg0.checkpoints 2 (stDeleg0.num_checkpoints 2 - 1)
      else stDeleg0.checkpoints 2 0).token_ids.length + 1 ≤ MAX_DELEGATES) ∧
    ((_move_token_delegates 9 stDeleg0 1 2 5).isSome = true ∧
     (mtdAfter 9 stDeleg0 1 2 5).num_checkpoints 1 = stDeleg0.num_checkpoints 1 + 1 ∧
     (mtdAfter 9 stDeleg0 1 2 5).num_checkpoints 2 = stDeleg0.num_checkpoints 2 + 1 ∧
     (_find_what_checkpoint_to_write 9 stDeleg0 1 = stDeleg0.num_checkpoints 1 ∨
      (0 < stDeleg0.num_checkpoints 1 ∧
       _find_what_checkpoint_to_write 9 stDeleg0 1 = stDeleg0.num_checkpoints 1 - 1)) ∧
     (_find_what_checkpoint_to_write 9 stDeleg0 2 = stDeleg0.num_checkpoints 2 ∨
      (0 < stDeleg0.num_checkpoints 2 ∧
       _find_what_checkpoint_to_write 9 stDeleg0 2 = stDeleg0.num_checkpoints 2 - 1)) ∧
     (∀ i, i ≠ _find_what_checkpoint_to_write 9 stDeleg0 1 →
       (mtdAfter 9 stDeleg0 1 2 5).checkpoints 1 i = stDeleg0.checkpoints 1 i) ∧
     (∀ i, i ≠ _find_what_checkpoint_to_write 9 stDeleg0 2 →
       (mtdAfter 9 stDeleg0 1 2 5).checkpoints 2 i = stDeleg0.checkpoints 2 i) ∧
     (∀ a, a ≠ 1 → a ≠ 2 →
       (mtdAfter 9 stDeleg0 1 2 5).num_checkpoints a = stDeleg0.num_checkpoints a) ∧
     (∀ a i, a ≠ 1 → a ≠ 2 →
       (mtdAfter 9 stDeleg0 1 2 5).checkpoints a i = stDeleg0.checkpoints a i) ∧
     (∀ a i, ((mtdAfter 9 stDeleg0 1 2 5).checkpoints a i).timestamp =
       (stDeleg0.checkpoints a i).timestamp)) :=
  ⟨⟨by norm_num, by norm_num, by norm_num, by norm_num, by decide⟩,
   moveTokenDelegates_discipline 9 stDeleg0 1 2 5 (by norm_num) (by norm_num)
     (by norm_num) (by norm_num) (by decide)⟩

/-! ## Block-number degeneracy (claim C10) -/

theorem blockSlopeOf_eq_zero (lp : Point) (ts : Nat) (h : lp.blk = 100) :
    blockSlopeOf lp ts = 0 := by
  unfold blockSlopeOf
  rw [h]
  split
  · rw [show sub128 current_block_number 100 = 0 from by decide,
        Nat.mul_zero, Nat.zero_mod, Nat.zero_div]
  · rfl

theorem cpStep_lp_blk_100 (sc : Nat → Int) (ts : Nat) (ilp : Point) (s : LoopState)
    (hi : ilp.blk = 100) :
    ((cpStep sc ts 100 ilp 0 s).2).lp.blk = 100 := by
  simp only [cpStep, hi, Nat.zero_mul, Nat.zero_mod, Nat.zero_div, Nat.add_zero]
  split <;> split <;> norm_num

theorem cpStep_ws_blk_100 (sc : Nat → Int) (ts : Nat) (ilp : Point) (s : LoopState)
    (hi : ilp.blk = 100) :
    ∀ w ∈ ((cpStep sc ts 100 ilp 0 s).2).ws, w ∈ s.ws ∨ w.2.blk = 100 := by
  simp only [cpStep, hi, Nat.zero_mul, Nat.zero_mod, Nat.zero_div, Nat.add_zero]
  split <;> split
  case isTrue.isTrue => intro w hw; exact Or.inl hw
  case isTrue.isFalse =>
    intro w hw
    rcases List.mem_append.mp hw with h | h
    · exact Or.inl h
    · rw [List.mem_singleton] at h
      subst h
      exact Or.inr (by norm_num)
  case isFalse.isTrue => intro w hw; exact Or.inl hw
  case isFalse.isFalse =>
    intro w hw
    rcases List.mem_append.mp hw with h | h
    · exact Or.inl h
    · rw [List.mem_singleton] at h
      subst h
      exact Or.inr (by norm_num)

theorem cpLoop_lp_blk_100 (sc : Nat → Int) (ts : Nat) (ilp : Point) (hi : ilp.blk = 100) :
    ∀ fuel s, s.lp.blk = 100 → (cpLoop sc ts 100 ilp 0 fuel s).lp.blk = 100 := by
  intro fuel
  induction fuel with
  | zero => intro s h; exact h
  | succ n ih =>
    intro s h
    simp only [cpLoop]
    by_cases hb : (cpStep sc ts 100 ilp 0 s).1 = true
    · rw [if_pos hb]; exact cpStep_lp_blk_100 sc ts ilp s hi
    · rw [if_neg hb]; exact ih _ (cpStep_lp_blk_100 sc ts ilp s hi)

theorem cpLoop_ws_blk_100 (sc : Nat → Int) (ts : Nat) (ilp : Point) (hi : ilp.blk = 100) :
    ∀ fuel s, ∀ w ∈ (cpLoop sc ts 100 ilp 0 fuel s).ws, w ∈ s.ws ∨ w.2.blk = 100 := by
  intro fuel
  induction fuel with
  | zero => intro s w hw; exact Or.inl hw
  | succ n ih =>
    intro s w hw
    simp only [cpLoop] at hw
    by_cases hb : (cpStep sc ts 100 ilp 0 s).1 = true
    · rw [if_pos hb] at hw
      exact cpStep_ws_blk_100 sc ts ilp s hi w hw
    · rw [if_neg hb] at hw
      rcases ih _ w hw with h | h
      · exact cpStep_ws_blk_100 sc ts ilp s hi w h
      · exact Or.inr h

theorem lastPointOf_blk_100 (st : VeState) (ts : Nat)
    (h100 : ∀ e, (st.point_history e).blk = 100) : (lastPointOf st ts).blk = 100 := by
  unfold lastPointOf
  split
  · exact h100 _
  · rfl

theorem cpRun_lp_blk_100 (st : VeState) (ts : Nat)
    (h100 : ∀ e, (st.point_history e).blk = 100) : (cpRun st ts).lp.blk = 100 := by
  have hl : (lastPointOf st ts).blk = 100 := lastPointOf_blk_100 st ts h100
  have hz : blockSlopeOf (lastPointOf st ts) ts = 0 := blockSlopeOf_eq_zero _ ts hl
  unfold cpRun
  rw [hz]
  exact cpLoop_lp_blk_100 st.slope_changes ts (lastPointOf st ts) hl 255 (cpInitState st ts) hl

theorem cpRun_ws_blk_100 (st : VeState) (ts : Nat)
    (h100 : ∀ e, (st.point_history e).blk = 100) :
    ∀ w ∈ (cpRun st ts).ws, w.2.blk = 100 := by
  intro w hw
  have hl : (lastPointOf st ts).blk = 100 := lastPointOf_blk_100 st ts h100
  have hz : blockSlopeOf (lastPointOf st ts) ts = 0 := blockSlopeOf_eq_zero _ ts hl
  unfold cpRun at hw
  rw [hz] at hw
  rcases cpLoop_ws_blk_100 st.slope_changes ts (lastPointOf st ts) hl 255
    (cpInitState st ts) w hw with h | h
  · exact absurd h (by simp [cpInitState])
  · exact h

/-- Claim C10: `current_block_number` is the constant 100, the initial point
and every global point `_check_point` writes carry `blk = 100` (given every
already-recorded point does), the per-position point it records carries
`blk = 100`, the block-interpolation slope is 0, and over such a history
`_find_block_epoch` degenerates: it returns `max_epoch` for any target block
at or past 100 and 0 for any target block below 100, distinguishing no two
points by block number. -/
theorem blockNumber_constant_100 (st : VeState) (token_id : Nat)
    (old_locked new_locked : LockedBalance) (ts b maxE : Nat)
    (h100 : ∀ e, (st.point_history e).blk = 100)
    (hme : maxE < 2 ^ 63) :
    current_block_number = 100 ∧
    (initialPoint ts).blk = 100 ∧
    blockSlopeOf (lastPointOf st ts) ts = 0 ∧
    (∀ w ∈ (_check_point st token_id old_locked new_locked ts).2, w.2.blk = 100) ∧
    (token_id ≠ 0 →
      ((_check_point st token_id old_locked new_locked ts).1.user_point_history token_id
        ((st.user_point_epoch token_id + 1) % 2 ^ 64)).blk = 100) ∧
    (100 ≤ b → _find_block_epoch st.point_history b maxE = maxE) ∧
    (b < 100 → _find_block_epoch st.point_history b maxE = 0) := by
  refine ⟨rfl, rfl, blockSlopeOf_eq_zero _ ts (lastPointOf_blk_100 st ts h100), ?_, ?_, ?_, ?_⟩
  · intro w hw
    have hw2 : w ∈ cpWrites st token_id old_locked new_locked ts := hw
    rw [cpWrites] at hw2
    rcases List.mem_append.mp hw2 with h | h
    · exact cpRun_ws_blk_100 st ts h100 w h
    · rw [List.mem_singleton] at h
      subst h
      show (cpFinalPoint st token_id old_locked new_locked ts).blk = 100
      unfold cpFinalPoint
      split
      · exact cpRun_lp_blk_100 st ts h100
      · exact cpRun_lp_blk_100 st ts h100
  · intro htok
    show ((_check_point st token_id old_locked new_locked ts).1.user_point_history token_id
      ((st.user_point_epoch token_id + 1) % 2 ^ 64)).blk = 100
    simp only [_check_point]
    rw [if_pos htok, if_pos ⟨rfl, rfl⟩]
    rfl
  · intro hb
    have hmono : ∀ i j, i ≤ j → j ≤ maxE →
        (st.point_history i).blk ≤ (st.point_history j).blk := by
      intro i j _ _
      rw [h100 i, h100 j]
    obtain ⟨a1, a2, a3⟩ := fbe_greatest_aux st.point_history b maxE hmono hme
      (by rw [h100 0]; exact hb)
    have := a3 maxE (Nat.le_refl _) (by rw [h100 maxE]; exact hb)
    omega
  · intro hb
    have hgt : ∀ e, b < (st.point_history e).blk := by
      intro e
      rw [h100 e]
      exact hb
    exact fbeLoop_all_gt st.point_history b hgt 128 0 maxE

/-- Witness for C10 at a concrete input: the all-100 history `stBlk100`,
position 1 locking {500, 604800} at time 0, target blocks 150 below
epoch 3. -/
theorem blockNumber_constant_100_witness :
    (∀ e, (stBlk100.point_history e).blk = 100) ∧ (3 : Nat) < 2 ^ 63 ∧
    (current_block_number = 100 ∧
     (initialPoint 0).blk = 100 ∧
     blockSlopeOf (lastPointOf stBlk100 0) 0 = 0 ∧
     (∀ w ∈ (_check_point stBlk100 1 LockedBalance.default ⟨500, 604800⟩ 0).2, w.2.blk = 100) ∧
     (1 ≠ 0 →
       ((_check_point stBlk100 1 LockedBalance.default ⟨500, 604800⟩ 0).1.user_point_history 1
         ((stBlk100.user_point_epoch 1 + 1) % 2 ^ 64)).blk = 100) ∧
     (100 ≤ 150 → _find_block_epoch stBlk100.point_history 150 3 = 3) ∧
     (150 < 100 → _find_block_epoch stBlk100.point_history 150 3 = 0)) :=
  ⟨fun _ => rfl, by norm_num,
   blockNumber_constant_100 stBlk100 1 LockedBalance.default ⟨500, 604800⟩ 0 150 3
     (fun _ => rfl) (by norm_num)⟩

end VeCep47
